import Mathlib

/-!
Shallow embedding of the chat application in `src/main.py` (a Mesop
single-page chat app): the message/conversation data model, the event
handlers that mutate the per-session state, and the streaming-response
loops of `_submit_chat_msg` and `on_click_regenerate`.

Modelling conventions:
* Python event-handler generators are embedded as pure functions from the
  pre-state to an outcome record.  Each `yield` (a render point / "tick")
  is recorded as a snapshot of the session state at that program point.
* The fake LLM `respond_to_chat` is treated, as the code does, as an
  opaque source of text fragments; a `Source` records the fragments it
  emits and whether it raises an error after the last one.
* The wall-clock debounce `(time.time() - start_time) >= 0.25` is external
  nondeterminism; it is embedded as a list of Booleans, one per fragment,
  saying whether the threshold had elapsed when that fragment arrived.
* Python list subscripts (which accept negative indices and raise
  `IndexError` when out of range) are embedded by `pyGet`; an `IndexError`
  exit is an explicit `none` / flag in the outcome.
-/

namespace FancyChat

/-- Role of a chat message: `Role = Literal["user", "bot"]` in `src/main.py`. -/
inductive Role where
  | user
  | bot
deriving DecidableEq, Repr

/-- Embeds the `ChatMessage` dataclass of `src/main.py` (lines 25-32):
role, content, edited flag and rating (+1 good, -1 bad, 0 none). -/
structure ChatMessage where
  role : Role := Role.user
  content : String := ""
  edited : Bool := false
  rating : Int := 0
deriving DecidableEq, Repr

/-- Embeds `dataclasses.asdict(m)` applied to a `ChatMessage`: the dict
stored in `State.history` entries, holding the same four fields. -/
structure MsgDict where
  role : Role
  content : String
  edited : Bool
  rating : Int
deriving DecidableEq, Repr

/-- The dict produced by `asdict(m)` in `on_click_new_chat` / `on_click_history`. -/
def asdict (m : ChatMessage) : MsgDict :=
  { role := m.role, content := m.content, edited := m.edited, rating := m.rating }

/-- Reconstruction `ChatMessage(**d)` used in `on_click_history`. -/
def chatMessageOfDict (d : MsgDict) : ChatMessage :=
  { role := d.role, content := d.content, edited := d.edited, rating := d.rating }

/-- Embeds the Mesop session `State` stateclass of `src/main.py`
(lines 35-45): pending input, active conversation (`output`), streaming
flag, sidebar flag, archived history, and the API-key dialog fields. -/
structure State where
  input : String := ""
  output : List ChatMessage := []
  in_progress : Bool := false
  sidebar_expanded : Bool := false
  history : List (List MsgDict) := []
  api_key : String := ""
  show_api_key_dialog : Bool := false
deriving DecidableEq, Repr

/-- Python list subscript `l[i]`: non-negative indices count from the
front, negative ones from the back; `none` is an `IndexError`. -/
def pyGet (l : List α) (i : Int) : Option α :=
  if 0 ≤ i then l[i.toNat]?
  else if i.natAbs ≤ l.length then l[l.length - i.natAbs]?
  else none

/-- In-place update of the element at index `i` (the effect of mutating a
list element through an alias, as the Python handlers do); out-of-range
indices leave the list unchanged. -/
def modifyAt (l : List α) (i : Nat) (f : α → α) : List α :=
  match l, i with
  | [], _ => []
  | x :: xs, 0 => f x :: xs
  | x :: xs, Nat.succ n => x :: modifyAt xs n f

/-- Concatenation of a fragment sequence in emission order. -/
def concatFrags : List String → String
  | [] => ""
  | c :: cs => c ++ concatFrags cs

/-- Embeds `on_click_thumb_up` (lines 408-412): sets
`state.output[msg_index].rating = 1`; `none` is the `IndexError` raised
when the index is out of range. -/
def on_click_thumb_up (s : State) (msg_index : Nat) : Option State :=
  if msg_index < s.output.length then
    some { s with output := modifyAt s.output msg_index fun m => { m with rating := 1 } }
  else none

/-- Embeds `on_click_thumb_down` (lines 415-419): sets
`state.output[msg_index].rating = -1`. -/
def on_click_thumb_down (s : State) (msg_index : Nat) : Option State :=
  if msg_index < s.output.length then
    some { s with output := modifyAt s.output msg_index fun m => { m with rating := -1 } }
  else none

/-- Embeds `on_click_new_chat` (lines 422-427): if the active conversation
is non-empty, prepend its `asdict` serialisation to `history`; then set
`state.output = []`.  `state.input` is not touched (the handler only
focuses the input component). -/
def on_click_new_chat (s : State) : State :=
  { s with
    history := if s.output.isEmpty then s.history else (s.output.map asdict) :: s.history,
    output := [] }

/-- Embeds `on_click_history` (lines 430-437): pop `history[chat_index]`
(`none` is the `IndexError` of `list.pop`), rebuild its messages with
`ChatMessage(**d)`, archive the current conversation if non-empty, and
install the restored messages as the active conversation. -/
def on_click_history (s : State) (chat_index : Nat) : Option State :=
  match s.history[chat_index]? with
  | none => none
  | some entry =>
      let popped := s.history.eraseIdx chat_index
      let chat_messages := entry.map chatMessageOfDict
      some { s with
        history := if s.output.isEmpty then popped else (s.output.map asdict) :: popped,
        output := chat_messages }

/-- Behaviour of one run of the fragment source (`respond_to_chat` or a
real backend): the fragments it yields in order, and whether it raises an
error after the last one instead of terminating normally. -/
structure Source where
  frags : List String
  raises : Bool
deriving DecidableEq, Repr

/-- Embeds the shared fragment loop of `_submit_chat_msg` (lines 547-551)
and `on_click_regenerate` (lines 579-583): each fragment is appended to
the content of the message at index `j` (the aliased `bot_message_obj` /
`bot_msg`), and when the debounce condition fires for that fragment the
handler yields, exposing the current state.  Returns the state after the
loop and the list of yielded snapshots. -/
def streamChunks (j : Nat) : State → List String → List Bool → State × List State
  | s, [], _ => (s, [])
  | s, c :: cs, ts =>
      let s1 : State :=
        { s with output := modifyAt s.output j fun m => { m with content := m.content ++ c } }
      let r := streamChunks j s1 cs ts.tail
      (r.1, if ts.headD false then s1 :: r.2 else r.2)

/-- Outcome of one streaming handler invocation: final state, the state
snapshots exposed by the yields before the fragment loop and inside it,
whether the final post-loop yield ran, whether an uncaught error escaped
the handler, whether a Python `IndexError` was raised before streaming,
and the two arguments passed to `respond_to_chat` (prompt string and
history list), `none` when the call was never reached. -/
structure StreamOutcome where
  state : State
  preYields : List State := []
  loopYields : List State := []
  finalTick : Bool := false
  raised : Bool := false
  indexError : Bool := false
  promptInput : Option String := none
  promptCtx : Option (List ChatMessage) := none
deriving DecidableEq, Repr

/-- Embeds `_submit_chat_msg` (lines 527-555).  The guard returns with no
mutation when `in_progress` is set or the input is empty.  Otherwise the
input is cleared (yield), `output = state.output or []` binds either the
state list itself (non-empty case) or a fresh empty list (empty case), a
user message is appended to that list and `in_progress` set (yield);
`respond_to_chat(user_input, state.output)` is then called — at that
point `state.output` does not yet contain the fresh list in the empty
case, and does not yet contain the bot message in either case — then the
empty bot message is appended, `state.output = output` stored, and the
fragment loop runs.  After normal exhaustion `in_progress` is cleared and
a final yield fires; an error from the source escapes the loop with no
cleanup. -/
def submit_chat_msg (s : State) (src : Source) (timing : List Bool) : StreamOutcome :=
  if s.in_progress || s.input == "" then { state := s }
  else
    let user_input := s.input
    let s1 : State := { s with input := "" }
    let aliased := !s.output.isEmpty
    let outList := s.output ++ [{ role := Role.user, content := user_input }]
    let s2 : State :=
      { s1 with output := if aliased then outList else s1.output, in_progress := true }
    let ctx := s2.output
    let botIdx := outList.length
    let s3 : State := { s2 with output := outList ++ [{ role := Role.bot }] }
    let r := streamChunks botIdx s3 src.frags timing
    if src.raises then
      { state := r.1, preYields := [s1, s2], loopYields := r.2, raised := true,
        promptInput := some user_input, promptCtx := some ctx }
    else
      { state := { r.1 with in_progress := false }, preYields := [s1, s2],
        loopYields := r.2, finalTick := true,
        promptInput := some user_input, promptCtx := some ctx }

/-- Embeds `on_click_regenerate` (lines 565-587).  The two subscripts
`state.output[msg_index - 1]` and `state.output[msg_index]` are evaluated
first and may raise `IndexError` (note `msg_index - 1` is `-1`, the last
element, when `msg_index = 0`); then the bot message's content is cleared
through the alias, `in_progress` set (yield), and
`respond_to_chat(user_msg.content, state.output[:msg_index])` called —
`user_msg.content` is read after the clearing, so it reads the cleared
list.  The fragment loop then streams into index `msg_index`; normal
exhaustion clears `in_progress` and fires a final yield, an error from
the source escapes with no cleanup. -/
def on_click_regenerate (s : State) (msg_index : Nat) (src : Source) (timing : List Bool) :
    StreamOutcome :=
  match pyGet s.output ((msg_index : Int) - 1), pyGet s.output (msg_index : Int) with
  | some _, some _ =>
      let s1 : State :=
        { s with output := modifyAt s.output msg_index fun m => { m with content := "" },
                 in_progress := true }
      let prompt := ((pyGet s1.output ((msg_index : Int) - 1)).map ChatMessage.content).getD ""
      let ctx := s1.output.take msg_index
      let r := streamChunks msg_index s1 src.frags timing
      if src.raises then
        { state := r.1, preYields := [s1], loopYields := r.2, raised := true,
          promptInput := some prompt, promptCtx := some ctx }
      else
        { state := { r.1 with in_progress := false }, preYields := [s1],
          loopYields := r.2, finalTick := true,
          promptInput := some prompt, promptCtx := some ctx }
  | _, _ => { state := s, indexError := true }

/-! Basic lemmas about the list-mutation and indexing helpers. -/

theorem modifyAt_length (l : List α) (i : Nat) (f : α → α) :
    (modifyAt l i f).length = l.length := by
  induction l generalizing i with
  | nil => rfl
  | cons x xs ih =>
      cases i with
      | zero => rfl
      | succ n => simp [modifyAt, ih]

theorem getElem?_modifyAt_self (l : List α) (i : Nat) (f : α → α) :
    (modifyAt l i f)[i]? = l[i]?.map f := by
  induction l generalizing i with
  | nil => rfl
  | cons x xs ih =>
      cases i with
      | zero => simp [modifyAt]
      | succ n => simpa [modifyAt] using ih n

theorem getElem?_modifyAt_ne (l : List α) (i j : Nat) (f : α → α) (h : j ≠ i) :
    (modifyAt l i f)[j]? = l[j]? := by
  induction l generalizing i j with
  | nil => rfl
  | cons x xs ih =>
      cases i with
      | zero =>
          cases j with
          | zero => exact absurd rfl h
          | succ m => simp [modifyAt]
      | succ n =>
          cases j with
          | zero => simp [modifyAt]
          | succ m => simpa [modifyAt] using ih n m (by omega)

theorem modifyAt_modifyAt (l : List α) (i : Nat) (f g : α → α) :
    modifyAt (modifyAt l i f) i g = modifyAt l i fun x => g (f x) := by
  induction l generalizing i with
  | nil => rfl
  | cons x xs ih =>
      cases i with
      | zero => rfl
      | succ n => simp [modifyAt, ih]

theorem modifyAt_id (l : List α) (i : Nat) : modifyAt l i (fun x => x) = l := by
  induction l generalizing i with
  | nil => rfl
  | cons x xs ih =>
      cases i with
      | zero => rfl
      | succ n => simp [modifyAt, ih]

theorem pyGet_ofNat (l : List α) (i : Nat) : pyGet l (i : Int) = l[i]? := by
  simp [pyGet]

theorem pyGet_neg_one (l : List α) (h : l ≠ []) : pyGet l (-1) = l.getLast? := by
  have hlen : 0 < l.length := List.length_pos.mpr h
  simp only [pyGet]
  rw [if_neg (by omega), if_pos (by simpa using hlen)]
  simp [List.getLast?_eq_getElem?]

theorem modifyAt_concat_length (l : List α) (a : α) (f : α → α) :
    modifyAt (l ++ [a]) l.length f = l ++ [f a] := by
  induction l with
  | nil => rfl
  | cons x xs ih => simpa [modifyAt] using ih

theorem take_modifyAt (l : List α) (i : Nat) (f : α → α) :
    (modifyAt l i f).take i = l.take i := by
  induction l generalizing i with
  | nil => rfl
  | cons x xs ih =>
      cases i with
      | zero => rfl
      | succ n => simpa [modifyAt] using ih n

theorem pyGet_sub_one_isSome (l : List α) (i : Nat) (h : i < l.length) :
    (pyGet l ((i : Int) - 1)).isSome := by
  cases i with
  | zero =>
      rw [show ((0 : Nat) : Int) - 1 = -1 by rfl,
        pyGet_neg_one l (by intro hnil; subst hnil; simp at h)]
      have : l.length - 1 < l.length := by omega
      rw [List.getLast?_eq_getElem?]
      simp [List.getElem?_eq_getElem this]
  | succ n =>
      rw [show ((n + 1 : Nat) : Int) - 1 = (n : Int) by omega, pyGet_ofNat]
      have : n < l.length := by omega
      simp [List.getElem?_eq_getElem this]

/-! Lemmas about the fragment loop. -/

theorem streamChunks_fst (j : Nat) (s : State) (cs : List String) (ts : List Bool) :
    (streamChunks j s cs ts).1 =
      { s with output := modifyAt s.output j fun m => { m with content := m.content ++ concatFrags cs } } := by
  induction cs generalizing s ts with
  | nil =>
      show s = _
      have : (fun m : ChatMessage => { m with content := m.content ++ concatFrags [] }) =
          fun m => m := by
        funext m
        simp [concatFrags]
      rw [this, modifyAt_id]
  | cons c cs ih =>
      show (streamChunks j _ cs ts.tail).1 = _
      rw [ih]
      simp only [modifyAt_modifyAt, concatFrags, String.append_assoc]

theorem streamChunks_snd_in_progress (j : Nat) (s : State) (cs : List String) (ts : List Bool)
    (y : State) (hy : y ∈ (streamChunks j s cs ts).2) : y.in_progress = s.in_progress := by
  induction cs generalizing s ts with
  | nil => simp [streamChunks] at hy
  | cons c cs ih =>
      simp only [streamChunks] at hy
      by_cases ht : ts.headD false
      · rw [if_pos ht] at hy
        rcases List.mem_cons.mp hy with h | h
        · subst h; rfl
        · have h2 := ih _ _ h
          exact h2
      · rw [if_neg ht] at hy
        have h2 := ih _ _ hy
        exact h2

/-! Closed-form descriptions of one full run of the two streaming
handlers, used by the claim theorems below. -/

theorem submit_chat_msg_run (s : State) (src : Source) (timing : List Bool)
    (hip : s.in_progress = false) (hin : s.input ≠ "") :
    submit_chat_msg s src timing =
      { state := { s with
                     input := "",
                     output := s.output ++ [{ role := Role.user, content := s.input },
                       { role := Role.bot, content := concatFrags src.frags }],
                     in_progress := src.raises },
        preYields := [{ s with input := "" },
          { s with
              input := "",
              output := if s.output.isEmpty then s.output
                else s.output ++ [{ role := Role.user, content := s.input }],
              in_progress := true }],
        loopYields := (streamChunks (s.output.length + 1)
          { s with
              input := "",
              output := s.output ++ [{ role := Role.user, content := s.input },
                { role := Role.bot }],
              in_progress := true } src.frags timing).2,
        finalTick := !src.raises,
        raised := src.raises,
        indexError := false,
        promptInput := some s.input,
        promptCtx := some (if s.output.isEmpty then s.output
          else s.output ++ [{ role := Role.user, content := s.input }]) } := by
  have hbeq : (s.input == "") = false := beq_eq_false_iff_ne.mpr hin
  have hlen : (s.output ++ [({ role := Role.user, content := s.input } : ChatMessage)]).length
      = s.output.length + 1 := by simp
  have hout : (streamChunks (s.output.length + 1)
      { s with
          input := "",
          output := s.output ++ [{ role := Role.user, content := s.input },
            { role := Role.bot }],
          in_progress := true } src.frags timing).1 =
      { s with
          input := "",
          output := s.output ++ [{ role := Role.user, content := s.input },
            { role := Role.bot, content := concatFrags src.frags }],
          in_progress := true } := by
    rw [streamChunks_fst]
    have h2 : (s.output ++ [({ role := Role.user, content := s.input } : ChatMessage),
        { role := Role.bot }]) =
        (s.output ++ [{ role := Role.user, content := s.input }]) ++ [{ role := Role.bot }] := by
      simp
    simp only [h2, ← hlen, modifyAt_concat_length]
    simp [String.empty_append]
  cases hr : src.raises <;> cases he : s.output.isEmpty <;>
    simp [submit_chat_msg, hip, hbeq, hout, hr, he, hlen]

theorem on_click_regenerate_run (s : State) (i : Nat) (src : Source) (timing : List Bool)
    (hi : i < s.output.length) :
    on_click_regenerate s i src timing =
      { state := { s with
                     output := modifyAt s.output i
                       fun m => { m with content := concatFrags src.frags },
                     in_progress := src.raises },
        preYields := [{ s with
                          output := modifyAt s.output i fun m => { m with content := "" },
                          in_progress := true }],
        loopYields := (streamChunks i
          { s with
              output := modifyAt s.output i fun m => { m with content := "" },
              in_progress := true } src.frags timing).2,
        finalTick := !src.raises,
        raised := src.raises,
        indexError := false,
        promptInput := some (((pyGet (modifyAt s.output i fun m => { m with content := "" })
          ((i : Int) - 1)).map ChatMessage.content).getD ""),
        promptCtx := some (s.output.take i) } := by
  obtain ⟨mPrev, hPrev⟩ := Option.isSome_iff_exists.mp (pyGet_sub_one_isSome s.output i hi)
  obtain ⟨mCur, hCur⟩ : ∃ m, pyGet s.output (i : Int) = some m := by
    rw [pyGet_ofNat]
    exact ⟨s.output[i], List.getElem?_eq_getElem hi⟩
  have hout : (streamChunks i
      { s with
          output := modifyAt s.output i fun m => { m with content := "" },
          in_progress := true } src.frags timing).1 =
      { s with
          output := modifyAt s.output i fun m => { m with content := concatFrags src.frags },
          in_progress := true } := by
    rw [streamChunks_fst]
    simp only [modifyAt_modifyAt, String.empty_append]
  have htake : (modifyAt s.output i fun m => { m with content := "" }).take i =
      s.output.take i := take_modifyAt ..
  cases hr : src.raises <;>
    simp [on_click_regenerate, hPrev, hCur, hout, htake, hr]

theorem on_click_regenerate_out_of_range (s : State) (i : Nat) (src : Source)
    (timing : List Bool) (hge : s.output.length ≤ i) :
    on_click_regenerate s i src timing = { state := s, indexError := true } := by
  have hnone : pyGet s.output (i : Int) = none := by
    rw [pyGet_ofNat]
    exact List.getElem?_eq_none hge
  rcases hfirst : pyGet s.output ((i : Int) - 1) with _ | m <;>
    simp [on_click_regenerate, hnone, hfirst]

/-- Round trip of the dataclass serialisation used by the history
archive: `ChatMessage(**asdict(m))` rebuilds `m` exactly. -/
theorem chatMessageOfDict_asdict (m : ChatMessage) : chatMessageOfDict (asdict m) = m := rfl

theorem map_asdict_roundtrip (l : List ChatMessage) :
    (l.map asdict).map chatMessageOfDict = l := by
  rw [List.map_map]
  have hcomp : chatMessageOfDict ∘ asdict = id := funext fun m => chatMessageOfDict_asdict m
  rw [hcomp, List.map_id]

/-! Claim theorems. -/

/-- C1: for every non-empty fragment sequence consumed to exhaustion by a
streaming operation — submit or regenerate — the final content of the
target bot message equals the concatenation of all fragments in emission
order, verbatim, regardless of the debounce-tick timing. -/
theorem C1_final_content_is_concat (s s2 : State) (src : Source)
    (timing timing2 : List Bool) (i : Nat)
    (hip : s.in_progress = false) (hin : s.input ≠ "")
    (hi : i < s2.output.length)
    (_hne : src.frags ≠ []) (_hok : src.raises = false) :
    (submit_chat_msg s src timing).state.output[s.output.length + 1]? =
      some { role := Role.bot, content := concatFrags src.frags } ∧
    (on_click_regenerate s2 i src timing2).state.output[i]? =
      s2.output[i]?.map fun m => { m with content := concatFrags src.frags } := by
  constructor
  · rw [submit_chat_msg_run s src timing hip hin]
    show (s.output ++ [{ role := Role.user, content := s.input },
      { role := Role.bot, content := concatFrags src.frags }])[s.output.length + 1]? = _
    have hsplit : s.output ++ [({ role := Role.user, content := s.input } : ChatMessage),
        { role := Role.bot, content := concatFrags src.frags }] =
        (s.output ++ [{ role := Role.user, content := s.input }]) ++
          [{ role := Role.bot, content := concatFrags src.frags }] := by
      simp
    have hlen : (s.output ++ [({ role := Role.user, content := s.input } :
        ChatMessage)]).length = s.output.length + 1 := by simp
    rw [hsplit, ← hlen, List.getElem?_concat_length]
  · rw [on_click_regenerate_run s2 i src timing2 hi]
    show (modifyAt s2.output i fun m => { m with content := concatFrags src.frags })[i]? = _
    exact getElem?_modifyAt_self ..

/-- Witness for C1 at a concrete session: submitting "Hello" with
fragments "a ", "b" leaves the bot message with content "a b", and
regenerating message 1 of a two-message conversation with the same
fragments overwrites it with "a b". -/
theorem C1_final_content_is_concat_witness :
    (submit_chat_msg { input := "Hello" } ⟨["a ", "b"], false⟩ []).state.output[1]? =
      some { role := Role.bot, content := "a b" } ∧
    (on_click_regenerate { output := [{ role := Role.user, content := "q" },
        { role := Role.bot, content := "old" }] } 1 ⟨["a ", "b"], false⟩ []).state.output[1]? =
      some { role := Role.bot, content := "a b" } := by
  have h := C1_final_content_is_concat { input := "Hello" }
    { output := [{ role := Role.user, content := "q" }, { role := Role.bot, content := "old" }] }
    ⟨["a ", "b"], false⟩ [] [] 1 rfl (by decide) (by decide) (by decide) rfl
  exact ⟨by simpa using h.1, by simpa using h.2⟩

/-- C4: submit with empty pending input, or submit while a stream is in
progress, returns through the guard: the whole session state is
unchanged, nothing is appended, no yield fires and no error is raised. -/
theorem C4_submit_guard_noop (s : State) (src : Source) (timing : List Bool)
    (h : s.in_progress = true ∨ s.input = "") :
    submit_chat_msg s src timing = { state := s } := by
  rcases h with h | h <;> simp [submit_chat_msg, h]

/-- Witness for C4: submitting with empty input on the initial state is a
silent no-op. -/
theorem C4_submit_guard_noop_witness :
    submit_chat_msg { input := "" } ⟨["x"], false⟩ [] = { state := { input := "" } } :=
  C4_submit_guard_noop { input := "" } ⟨["x"], false⟩ [] (Or.inr rfl)

/-- C5: archiving a non-empty active conversation with
`on_click_new_chat` and then restoring it with `on_click_history` on its
history entry (index 0) restores the exact session state: the active
conversation is identical in every message field, and the history is back
to what it was. -/
theorem C5_archive_restore_roundtrip (s : State) (h : s.output ≠ []) :
    on_click_history (on_click_new_chat s) 0 = some s := by
  have he : s.output.isEmpty = false := List.isEmpty_eq_false.mpr h
  have hmap : List.map (chatMessageOfDict ∘ asdict) s.output = s.output := by
    have hmr := map_asdict_roundtrip s.output
    rwa [List.map_map] at hmr
  simp [on_click_new_chat, on_click_history, he, hmap]

/-- Witness for C5 at a concrete one-message conversation. -/
theorem C5_archive_restore_roundtrip_witness :
    on_click_history (on_click_new_chat
        { input := "x",
          output := [{ role := Role.user, content := "A", edited := true, rating := 1 }] }) 0 =
      some { input := "x",
             output := [{ role := Role.user, content := "A", edited := true, rating := 1 }] } :=
  C5_archive_restore_roundtrip
    { input := "x",
      output := [{ role := Role.user, content := "A", edited := true, rating := 1 }] }
    (by decide)

/-- C7 (amended): `on_click_new_chat` empties the active conversation and,
when it was non-empty, prepends its serialisation to the history (history
grows by one entry at index 0); an empty active conversation leaves the
history unchanged.  The pending input, however, is NOT cleared: it is
left exactly as it was. -/
theorem C7_new_chat_archives (s : State) :
    (on_click_new_chat s).output = [] ∧
    (on_click_new_chat s).input = s.input ∧
    (on_click_new_chat s).in_progress = s.in_progress ∧
    (s.output ≠ [] → (on_click_new_chat s).history = (s.output.map asdict) :: s.history) ∧
    (s.output = [] → (on_click_new_chat s).history = s.history) := by
  refine ⟨rfl, rfl, rfl, ?_, ?_⟩
  · intro hne
    simp [on_click_new_chat, List.isEmpty_eq_false.mpr hne]
  · intro heq
    simp [on_click_new_chat, heq]

/-- Counterexample to C7 as stated: starting a new conversation with
pending input "draft" leaves the pending input as "draft", not cleared. -/
theorem C7_new_chat_archives_cex :
    (on_click_new_chat
      { input := "draft",
        output := [{ role := Role.user, content := "A" }] }).input = "draft" ∧
    ("draft" : String) ≠ "" :=
  ⟨rfl, by decide⟩

/-- Witness for C7 (amended) at a concrete state: the archived
conversation lands at history index 0. -/
theorem C7_new_chat_archives_witness :
    (on_click_new_chat
      { input := "d",
        output := [{ role := Role.user, content := "A" }] }).history =
      [[asdict { role := Role.user, content := "A" }]] := by
  have h := (C7_new_chat_archives
    { input := "d",
      output := [{ role := Role.user, content := "A" }] }).2.2.2.1 (by decide)
  simpa using h

/-- C8: rating a message sets exactly its rating field — thumbs-up to 1,
a later thumbs-down overwrites it to -1 (last write wins, not additive) —
and leaves the message's other fields, all other messages, and the rest
of the session state unchanged. -/
theorem C8_rating_overwrite (s : State) (i : Nat) (h : i < s.output.length) :
    ∃ s1 s2, on_click_thumb_up s i = some s1 ∧ on_click_thumb_down s1 i = some s2 ∧
      s1.output[i]? = s.output[i]?.map (fun m => { m with rating := 1 }) ∧
      s2.output[i]? = s.output[i]?.map (fun m => { m with rating := -1 }) ∧
      (∀ j, j ≠ i → s2.output[j]? = s.output[j]?) ∧
      s2.input = s.input ∧ s2.in_progress = s.in_progress ∧ s2.history = s.history := by
  refine ⟨{ s with output := modifyAt s.output i (fun m => { m with rating := 1 }) }, { s with output := modifyAt (modifyAt s.output i (fun m => { m with rating := 1 })) i (fun m => { m with rating := -1 }) }, ?_, ?_, ?_, ?_, ?_, rfl, rfl, rfl⟩
  · simp [on_click_thumb_up, h]
  · simp [on_click_thumb_down, modifyAt_length, h]
  · exact getElem?_modifyAt_self ..
  · rw [modifyAt_modifyAt]
    exact getElem?_modifyAt_self ..
  · intro j hj
    rw [modifyAt_modifyAt]
    exact getElem?_modifyAt_ne _ _ _ _ hj

/-- Witness for C8 at the spec scenario: rate message 1 up then down; the
final rating is -1. -/
theorem C8_rating_overwrite_witness :
    ∃ s1 s2, on_click_thumb_up { output := [{ role := Role.user, content := "q" },
        { role := Role.bot, content := "a" }] } 1 = some s1 ∧
      on_click_thumb_down s1 1 = some s2 ∧
      s2.output[1]?.map ChatMessage.rating = some (-1) := by
  obtain ⟨s1, s2, h1, h2, h3, h4, h5, h6, h7, h8⟩ :=
    C8_rating_overwrite { output := [{ role := Role.user, content := "q" },
      { role := Role.bot, content := "a" }] } 1 (by decide)
  exact ⟨s1, s2, h1, h2, by rw [h4]; rfl⟩

/-- C10: `on_click_new_chat` is idempotent on the session state — the
second call finds the active conversation empty and changes nothing. -/
theorem C10_new_chat_idempotent (s : State) :
    on_click_new_chat (on_click_new_chat s) = on_click_new_chat s := rfl

/-- C2 (amended): for a streaming operation that passes its guard,
`in_progress` is true at the yield just before the fragment loop and at
every in-loop yield; on normal exhaustion of the fragment sequence —
including the empty one — no error escapes, `in_progress` ends false and
the final flush tick fires after it becomes false.  When the fragment
source raises, however, the error escapes the handler uncaught,
`in_progress` is left true and no final tick fires (the code has no
try/finally around the loop).  Both for `_submit_chat_msg` and for
`on_click_regenerate`. -/
theorem C2_in_progress_lifecycle (s s2 : State) (src : Source)
    (timing timing2 : List Bool) (i : Nat)
    (hip : s.in_progress = false) (hin : s.input ≠ "")
    (hi : i < s2.output.length) :
    ((submit_chat_msg s src timing).preYields.getLast?.map State.in_progress = some true) ∧
    (∀ y ∈ (submit_chat_msg s src timing).loopYields, y.in_progress = true) ∧
    (submit_chat_msg s src timing).raised = src.raises ∧
    (submit_chat_msg s src timing).finalTick = !src.raises ∧
    (submit_chat_msg s src timing).state.in_progress = src.raises ∧
    ((on_click_regenerate s2 i src timing2).preYields.getLast?.map State.in_progress
      = some true) ∧
    (∀ y ∈ (on_click_regenerate s2 i src timing2).loopYields, y.in_progress = true) ∧
    (on_click_regenerate s2 i src timing2).raised = src.raises ∧
    (on_click_regenerate s2 i src timing2).finalTick = !src.raises ∧
    (on_click_regenerate s2 i src timing2).state.in_progress = src.raises := by
  rw [submit_chat_msg_run s src timing hip hin, on_click_regenerate_run s2 i src timing2 hi]
  refine ⟨rfl, ?_, rfl, rfl, rfl, rfl, ?_, rfl, rfl, rfl⟩
  · intro y hy
    exact streamChunks_snd_in_progress _ _ _ _ y hy
  · intro y hy
    exact streamChunks_snd_in_progress _ _ _ _ y hy

/-- Counterexample to C2 as stated: a fragment source that raises after
one fragment leaves the submit handler with `in_progress` still true, no
final tick, and the error propagated out — `in_progress` is not restored
on the error exit path. -/
theorem C2_in_progress_lifecycle_cex :
    (submit_chat_msg { input := "Hello" } ⟨["Partial "], true⟩ []).raised = true ∧
    (submit_chat_msg { input := "Hello" } ⟨["Partial "], true⟩ []).state.in_progress = true ∧
    (submit_chat_msg { input := "Hello" } ⟨["Partial "], true⟩ []).finalTick = false :=
  ⟨rfl, rfl, rfl⟩

/-- Witness for C2 (amended) at a concrete accepted submit and a concrete
regenerate with a normally-terminating source. -/
theorem C2_in_progress_lifecycle_witness :
    (submit_chat_msg { input := "Hi" } ⟨["a"], false⟩ []).state.in_progress = false ∧
    (submit_chat_msg { input := "Hi" } ⟨["a"], false⟩ []).finalTick = true ∧
    (on_click_regenerate { output := [{ role := Role.user, content := "q" },
        { role := Role.bot, content := "r" }] } 1 ⟨[], false⟩ []).state.in_progress = false := by
  have h := C2_in_progress_lifecycle { input := "Hi" }
    { output := [{ role := Role.user, content := "q" }, { role := Role.bot, content := "r" }] }
    ⟨["a"], false⟩ [] [] 1 rfl (by decide) (by decide)
  exact ⟨h.2.2.2.2.1, h.2.2.2.1, h.2.2.2.2.2.2.2.2.2⟩

/-- C3 (amended): `on_click_regenerate` performs no role validation and
has no `InvalidIndex` error: for every index that is in range — whatever
the role of the message there — it clears that message's content and
streams the new response into it; only an out-of-range index aborts the
handler (a Python `IndexError` from the subscripts) and then nothing is
mutated. -/
theorem C3_regenerate_no_role_check (s : State) (i : Nat) (src : Source)
    (timing : List Bool) :
    (i < s.output.length →
      (on_click_regenerate s i src timing).indexError = false ∧
      (on_click_regenerate s i src timing).state.output[i]? =
        s.output[i]?.map fun m => { m with content := concatFrags src.frags }) ∧
    (s.output.length ≤ i →
      on_click_regenerate s i src timing = { state := s, indexError := true }) := by
  constructor
  · intro hi
    rw [on_click_regenerate_run s i src timing hi]
    refine ⟨rfl, ?_⟩
    show (modifyAt s.output i fun m => { m with content := concatFrags src.frags })[i]? = _
    exact getElem?_modifyAt_self ..
  · intro hge
    exact on_click_regenerate_out_of_range s i src timing hge

/-- Counterexample to C3 as stated: regenerating at index 0 of a
conversation whose message 0 has role user raises no error at all and
mutates the store — message 0's content is overwritten by the stream. -/
theorem C3_regenerate_no_role_check_cex :
    (on_click_regenerate { output := [{ role := Role.user, content := "hi" },
        { role := Role.bot, content := "old" }] } 0 ⟨["new "], false⟩ []).indexError = false ∧
    (on_click_regenerate { output := [{ role := Role.user, content := "hi" },
        { role := Role.bot, content := "old" }] } 0 ⟨["new "], false⟩ []).raised = false ∧
    (on_click_regenerate { output := [{ role := Role.user, content := "hi" },
        { role := Role.bot, content := "old" }] } 0
        ⟨["new "], false⟩ []).state.output[0]? =
      some { role := Role.user, content := "new " } ∧
    ({ role := Role.user, content := "hi" } : ChatMessage).role ≠ Role.bot :=
  ⟨rfl, rfl, rfl, by decide⟩

/-- Witness for C3 (amended): both branches at concrete indices of a
two-message conversation. -/
theorem C3_regenerate_no_role_check_witness :
    (on_click_regenerate { output := [{ role := Role.user, content := "hi" },
        { role := Role.bot, content := "old" }] } 0 ⟨["x"], false⟩ []).indexError = false ∧
    on_click_regenerate { output := [{ role := Role.user, content := "hi" },
        { role := Role.bot, content := "old" }] } 5 ⟨["x"], false⟩ [] =
      { state := { output := [{ role := Role.user, content := "hi" },
          { role := Role.bot, content := "old" }] }, indexError := true } := by
  constructor
  · exact ((C3_regenerate_no_role_check { output := [{ role := Role.user, content := "hi" },
      { role := Role.bot, content := "old" }] } 0 ⟨["x"], false⟩ []).1 (by decide)).1
  · exact (C3_regenerate_no_role_check { output := [{ role := Role.user, content := "hi" },
      { role := Role.bot, content := "old" }] } 5 ⟨["x"], false⟩ []).2 (by decide)

/-- C6 (amended): an accepted submit clears the pending input and passes
the pending text as the prompt; but the history argument handed to
`respond_to_chat` contains the prior messages plus the new user message
only when the conversation was already non-empty — when the conversation
was empty, `output = state.output or []` binds a fresh list, and
`respond_to_chat` receives the old empty `state.output`, which does NOT
contain the newly appended user message.  The call is made before the
empty bot message is appended. -/
theorem C6_prompt_context (s : State) (src : Source) (timing : List Bool)
    (hip : s.in_progress = false) (hin : s.input ≠ "") :
    (submit_chat_msg s src timing).promptInput = some s.input ∧
    (submit_chat_msg s src timing).state.input = "" ∧
    (s.output ≠ [] → (submit_chat_msg s src timing).promptCtx =
      some (s.output ++ [{ role := Role.user, content := s.input }])) ∧
    (s.output = [] → (submit_chat_msg s src timing).promptCtx = some []) := by
  rw [submit_chat_msg_run s src timing hip hin]
  refine ⟨rfl, rfl, ?_, ?_⟩
  · intro hne
    simp [List.isEmpty_eq_false.mpr hne]
  · intro heq
    simp [heq]

/-- Counterexample to C6 as stated: the first submit of a session (empty
conversation) passes the empty history to the fragment source — the
newly appended user message "Hello" is not part of the prompt context. -/
theorem C6_prompt_context_cex :
    (submit_chat_msg { input := "Hello" } ⟨["Hi "], false⟩ []).promptCtx = some [] ∧
    ({ role := Role.user, content := "Hello" } : ChatMessage) ∉ ([] : List ChatMessage) :=
  ⟨rfl, by simp⟩

/-- Witness for C6 (amended) on a non-empty conversation: the context
does include the prior messages and the new user message. -/
theorem C6_prompt_context_witness :
    (submit_chat_msg
      { input := "B",
        output := [{ role := Role.user, content := "A" },
          { role := Role.bot, content := "r" }] } ⟨["x"], false⟩ []).promptCtx =
      some [{ role := Role.user, content := "A" }, { role := Role.bot, content := "r" },
        { role := Role.user, content := "B" }] := by
  have h := (C6_prompt_context
    { input := "B",
      output := [{ role := Role.user, content := "A" }, { role := Role.bot, content := "r" }] }
    ⟨["x"], false⟩ [] rfl (by decide)).2.2.1 (by decide)
  simpa using h

/-- C9: regenerating at message index 0 of a non-empty conversation
raises no index error — `state.output[msg_index - 1]` reads index -1,
i.e. the last message of the conversation, whose content (as it stands
after message 0's clearing; the original content whenever the
conversation has at least two messages) becomes the prompt, with an empty
prefix as context — and message 0's content is cleared and overwritten by
the new stream. -/
theorem C9_regenerate_zero_negative_index (s : State) (src : Source) (timing : List Bool)
    (h : s.output ≠ []) :
    (on_click_regenerate s 0 src timing).indexError = false ∧
    (on_click_regenerate s 0 src timing).promptCtx = some [] ∧
    (2 ≤ s.output.length → (on_click_regenerate s 0 src timing).promptInput =
      s.output.getLast?.map ChatMessage.content) ∧
    (s.output.length = 1 → (on_click_regenerate s 0 src timing).promptInput = some "") ∧
    (on_click_regenerate s 0 src timing).state.output[0]? =
      s.output[0]?.map fun m => { m with content := concatFrags src.frags } := by
  have h0 : 0 < s.output.length := List.length_pos.mpr h
  have hm : (modifyAt s.output 0 fun m => { m with content := "" }) ≠ [] := by
    intro hnil
    have hlm := modifyAt_length s.output 0 (fun m => { m with content := "" })
    rw [hnil] at hlm
    exact h (List.length_eq_zero.mp hlm.symm)
  have hneg : pyGet (modifyAt s.output 0 fun m => { m with content := "" })
      (((0 : Nat) : Int) - 1) =
      (modifyAt s.output 0 fun m => { m with content := "" }).getLast? := by
    rw [show (((0 : Nat) : Int) - 1) = -1 by rfl]
    exact pyGet_neg_one _ hm
  rw [on_click_regenerate_run s 0 src timing h0]
  refine ⟨rfl, by simp, ?_, ?_, ?_⟩
  · intro h2
    obtain ⟨mlast, hml⟩ : ∃ m, s.output[s.output.length - 1]? = some m :=
      ⟨_, List.getElem?_eq_getElem (by omega)⟩
    have hlast : (modifyAt s.output 0
        fun m => { m with content := "" }).getLast? = some mlast := by
      rw [List.getLast?_eq_getElem?, modifyAt_length,
        getElem?_modifyAt_ne _ _ _ _ (by omega : s.output.length - 1 ≠ 0)]
      exact hml
    show some _ = _
    rw [hneg, hlast, List.getLast?_eq_getElem?, hml]
    rfl
  · intro h1
    obtain ⟨m0, hm0⟩ : ∃ m, s.output[0]? = some m :=
      ⟨_, List.getElem?_eq_getElem h0⟩
    have hlast : (modifyAt s.output 0 fun m => { m with content := "" }).getLast? =
        some { m0 with content := "" } := by
      rw [List.getLast?_eq_getElem?, modifyAt_length, h1]
      show (modifyAt s.output 0 fun m => { m with content := "" })[0]? = _
      rw [getElem?_modifyAt_self, hm0]
      rfl
    show some _ = _
    rw [hneg, hlast]
    rfl
  · show (modifyAt s.output 0 fun m => { m with content := concatFrags src.frags })[0]? = _
    exact getElem?_modifyAt_self ..

/-- Witness for C9 at a concrete two-message conversation: no index
error, the last message's content "q2" is the prompt, and message 0 is
overwritten by the stream. -/
theorem C9_regenerate_zero_negative_index_witness :
    (on_click_regenerate { output := [{ role := Role.bot, content := "r" },
        { role := Role.user, content := "q2" }] } 0 ⟨["z"], false⟩ []).indexError = false ∧
    (on_click_regenerate { output := [{ role := Role.bot, content := "r" },
        { role := Role.user, content := "q2" }] } 0 ⟨["z"], false⟩ []).promptInput = some "q2" ∧
    (on_click_regenerate { output := [{ role := Role.bot, content := "r" },
        { role := Role.user, content := "q2" }] } 0 ⟨["z"], false⟩ []).state.output[0]? =
      some { role := Role.bot, content := "z" } := by
  have h := C9_regenerate_zero_negative_index { output := [{ role := Role.bot, content := "r" },
    { role := Role.user, content := "q2" }] } ⟨["z"], false⟩ [] (by decide)
  exact ⟨h.1, by simpa using h.2.2.1 (by decide), by simpa using h.2.2.2.2⟩

end FancyChat
